import Mathlib

/-!
Recipe Finder: the search-and-normalize pipeline of `src/App.js`

A shallow embedding of the component `App`:

* the record mapping done inline in `fetchRecipes` (lines 25-42) and in
  `fetchRecipeDetails` (lines 82-98);
* the instruction lines computed where a recipe is displayed (lines 216-218);
* the five `useState` cells and the handlers that write them, each `async`
  function cut at its `await` into the part that runs when it is called and
  the part that runs when the request has settled.

JavaScript strings are modelled by `String`; a field of a parsed JSON object
is `Option String`, `none` standing for `null` and for a key that is not there
(`undefined`), the two values the code cannot tell apart.
-/

namespace RecipeFinder

/-! ## Strings -/

/-- The code points removed by `String.prototype.trim`: ECMAScript `WhiteSpace`
(TAB, VT, FF, ZWNBSP and the category `Zs`) and `LineTerminator`
(LF, CR, LS, PS). -/
def isTrimChar (c : Char) : Bool :=
  let n := c.toNat
  n == 0x09 || n == 0x0A || n == 0x0B || n == 0x0C || n == 0x0D || n == 0x20 ||
  n == 0xA0 || n == 0x1680 || (0x2000 ≤ n && n ≤ 0x200A) || n == 0x2028 ||
  n == 0x2029 || n == 0x202F || n == 0x205F || n == 0x3000 || n == 0xFEFF

/-- Strip the trim characters from both ends of a list of characters. -/
def trimChars (cs : List Char) : List Char :=
  ((cs.dropWhile isTrimChar).reverse.dropWhile isTrimChar).reverse

/-- The method `s.trim()`. -/
def jsTrim (s : String) : String := ⟨trimChars s.data⟩

/-- Cut a list of characters at every occurrence of `sep`; the pieces never
contain `sep`, and there is always at least one piece. -/
def splitChars (sep : Char) : List Char → List (List Char)
  | [] => [[]]
  | c :: cs =>
    if c = sep then [] :: splitChars sep cs
    else
      match splitChars sep cs with
      | [] => [[c]]
      | piece :: rest => (c :: piece) :: rest

/-- The call `s.split('\n')`. -/
def splitNewline (s : String) : List String :=
  (splitChars '\n' s.data).map String.mk

/-! ## Raw records -/

/-- A meal object of the response body: its keys with their values, a value
being a string or `null`. The first binding of a key is the one read. -/
structure RawMeal where
  fields : List (String × Option String)
deriving DecidableEq

/-- Property access `meal[key]`: `none` when the key is not there or holds
`null`. -/
def RawMeal.get (meal : RawMeal) (key : String) : Option String :=
  match meal.fields.lookup key with
  | some v => v
  | none => none

/-- The recipe object built by both mappings. -/
structure Recipe where
  id : Option String
  name : Option String
  image : Option String
  ingredients : List String
  instructions : Option String
  prepTime : String
  cookTime : String
  servings : String
deriving DecidableEq

/-- The call `.filter(Boolean)` on an array of strings and `null`s: `null` and
the empty string are dropped. -/
def filterBoolean (xs : List (Option String)) : List String :=
  xs.filterMap fun x =>
    match x with
    | some s => if s = "" then none else some s
    | none => none

/-- Lines 30-36: the `ingredients` array of the list-search mapping. -/
def formattedIngredients (meal : RawMeal) : List String :=
  filterBoolean <| (List.range 20).map fun i =>
    let ingredient := meal.get ("strIngredient" ++ toString (i + 1))
    let measure := meal.get ("strMeasure" ++ toString (i + 1))
    match ingredient with
    | none => none
    | some ingredient =>
      if ingredient ≠ "" ∧ jsTrim ingredient ≠ "" ∧ jsTrim ingredient ≠ "null" then
        some ((match measure with
               | none => ""
               | some measure =>
                 if measure ≠ "" ∧ jsTrim measure ≠ "" ∧ jsTrim measure ≠ "null"
                 then jsTrim measure ++ " " else "") ++ jsTrim ingredient)
      else none

/-- Lines 25-42: the object built for each meal of a search response. -/
def formattedRecipe (meal : RawMeal) : Recipe :=
  { id := meal.get "idMeal"
    name := meal.get "strMeal"
    image := meal.get "strMealThumb"
    ingredients := formattedIngredients meal
    instructions := meal.get "strInstructions"
    prepTime := "N/A"
    cookTime := "N/A"
    servings := "N/A" }

/-- Lines 86-92: the `ingredients` array of the detail-lookup mapping. -/
def detailedIngredients (meal : RawMeal) : List String :=
  filterBoolean <| (List.range 20).map fun i =>
    let ingredient := meal.get ("strIngredient" ++ toString (i + 1))
    let measure := meal.get ("strMeasure" ++ toString (i + 1))
    match ingredient with
    | none => none
    | some ingredient =>
      if ingredient ≠ "" ∧ jsTrim ingredient ≠ "" ∧ jsTrim ingredient ≠ "null" then
        some ((match measure with
               | none => ""
               | some measure =>
                 if measure ≠ "" ∧ jsTrim measure ≠ "" ∧ jsTrim measure ≠ "null"
                 then jsTrim measure ++ " " else "") ++ jsTrim ingredient)
      else none

/-- Lines 82-98: the object built for the meal of a lookup response. -/
def detailedRecipe (meal : RawMeal) : Recipe :=
  { id := meal.get "idMeal"
    name := meal.get "strMeal"
    image := meal.get "strMealThumb"
    ingredients := detailedIngredients meal
    instructions := meal.get "strInstructions"
    prepTime := "N/A"
    cookTime := "N/A"
    servings := "N/A" }

/-- Lines 216-217: `instructions.split('\n').filter(line => line.trim() !== '')`
followed by the `.map` whose items show `instruction.trim()`. -/
def instructionLines (instructions : String) : List String :=
  ((splitNewline instructions).filter fun line => jsTrim line ≠ "").map
    fun instruction => jsTrim instruction

/-- Lines 215-223: the items of the instruction list of a displayed recipe. -/
def instructionItems (instructions : Option String) : List String :=
  match instructions with
  | none => ["No instructions available."]
  | some text =>
    if text ≠ "" ∧ (instructionLines text).length > 0 then instructionLines text
    else ["No instructions available."]

/-! ## Application state -/

/-- The five `useState` cells of `App` (lines 5-9). -/
structure AppState where
  searchTerm : String
  filteredRecipes : List Recipe
  selectedRecipe : Option Recipe
  loading : Bool
  error : Option String
deriving DecidableEq

/-- The state of the first render: the arguments of the `useState` calls. -/
def initialState : AppState :=
  { searchTerm := ""
    filteredRecipes := []
    selectedRecipe := none
    loading := false
    error := none }

/-- How a request ends, as far as the two `try` blocks can tell. -/
inductive Response where
  /-- The promise of `fetch` rejects: the transport failed. -/
  | networkError
  /-- A response arrived and `response.ok` is false. -/
  | httpError (status : Nat)
  /-- The promise of `response.json()` rejects: the body is not JSON. -/
  | invalidBody
  /-- The parsed body: `data.meals` is `null` (`none`) or an array of meals. -/
  | json (meals : Option (List RawMeal))
deriving DecidableEq

/-- Lines 13-14: what `fetchRecipes` does before the request is sent. -/
def fetchRecipesStart (s : AppState) : AppState :=
  { s with loading := true, error := none }

/-- Lines 17-50: what `fetchRecipes` does once its request has settled. -/
def fetchRecipesResolve (response : Response) (s : AppState) : AppState :=
  match response with
  | .json meals =>
    let meals := meals.getD []
    let formattedRecipes := meals.map formattedRecipe
    { { s with filteredRecipes := formattedRecipes } with loading := false }
  | _ =>
    { { { s with error := some "Failed to load recipes. Please try again later." } with
          filteredRecipes := [] } with loading := false }

/-- The URL requested by `fetchRecipes(query)` (line 16). -/
def searchUrl (query : String) : String :=
  "https://www.themealdb.com/api/json/v1/1/search.php?s=" ++ query

/-- The URL requested by `fetchRecipeDetails(id)` (line 74). -/
def lookupUrl (id : String) : String :=
  "https://www.themealdb.com/api/json/v1/1/lookup.php?i=" ++ id

/-- A call `fetchRecipes(query)` run from start to end with nothing else
happening in between; `response` is what the request for `searchUrl query`
came to. -/
def fetchRecipes (_query : String) (response : Response) (s : AppState) : AppState :=
  fetchRecipesResolve response (fetchRecipesStart s)

/-- Lines 71-72: what `fetchRecipeDetails` does before the request is sent. -/
def fetchRecipeDetailsStart (s : AppState) : AppState :=
  { s with loading := true, error := none }

/-- Lines 75-110: what `fetchRecipeDetails` does once its request has settled. -/
def fetchRecipeDetailsResolve (response : Response) (s : AppState) : AppState :=
  match response with
  | .json meals =>
    let meal : Option RawMeal :=
      match meals with
      | some meals => meals.head?
      | none => none
    match meal with
    | some meal =>
      { { s with selectedRecipe := some (detailedRecipe meal) } with loading := false }
    | none =>
      { { { s with error := some "Recipe details not found." } with
            selectedRecipe := none } with loading := false }
  | _ =>
    { { { s with error := some "Failed to load recipe details. Please try again later." } with
          selectedRecipe := none } with loading := false }

/-- A call `fetchRecipeDetails(id)` run from start to end with nothing else
happening in between; `response` is what the request for `lookupUrl id` came
to. -/
def fetchRecipeDetails (_id : String) (response : Response) (s : AppState) : AppState :=
  fetchRecipeDetailsResolve response (fetchRecipeDetailsStart s)

/-- Lines 113-115: `handleSearchChange`, with `text` for `event.target.value`. -/
def handleSearchChange (text : String) (s : AppState) : AppState :=
  { s with searchTerm := text }

/-- Lines 117-119: `handleRecipeClick` calls `fetchRecipeDetails(recipeId)`,
which runs up to its `await fetch`. -/
def handleRecipeClick (_recipeId : String) (s : AppState) : AppState :=
  fetchRecipeDetailsStart s

/-- Lines 121-124: `handleCloseDetails`. -/
def handleCloseDetails (s : AppState) : AppState :=
  { { s with selectedRecipe := none } with error := none }

/-- One turn of the event loop that touches the state. A request that is sent
and the settling of that request are separate turns, so that other turns may
come between them. -/
inductive Event where
  /-- The input changes (`handleSearchChange`). -/
  | searchChanged (text : String)
  /-- A call `fetchRecipes(query)` runs up to its `await fetch`. -/
  | searchIssued (query : String)
  /-- A request of `fetchRecipes` settles and the rest of the call runs. -/
  | searchSettled (response : Response)
  /-- A card is clicked: `fetchRecipeDetails(id)` runs up to its `await fetch`. -/
  | detailsIssued (id : String)
  /-- A request of `fetchRecipeDetails` settles and the rest of the call runs. -/
  | detailsSettled (response : Response)
  /-- The close button is clicked (`handleCloseDetails`). -/
  | detailsClosed
deriving DecidableEq

/-- The state after one turn. -/
def step (s : AppState) : Event → AppState
  | .searchChanged text => handleSearchChange text s
  | .searchIssued _ => fetchRecipesStart s
  | .searchSettled response => fetchRecipesResolve response s
  | .detailsIssued id => handleRecipeClick id s
  | .detailsSettled response => fetchRecipeDetailsResolve response s
  | .detailsClosed => handleCloseDetails s

/-- The state after a sequence of turns, oldest first. -/
def run (s : AppState) (events : List Event) : AppState :=
  events.foldl step s

/-- What the view shows of a state. -/
inductive Status where
  | Idle
  | Loading
  | Error (message : String)
deriving DecidableEq

/-- Lines 148-162: the loading indicator is shown when `loading` holds, the
message when `error` is a non-empty string, the recipes when neither is the
case. -/
def status (s : AppState) : Status :=
  if s.loading then .Loading
  else
    match s.error with
    | some message => if message = "" then .Idle else .Error message
    | none => .Idle

/-- Lines 162-163: the details view, and with it the close button, is shown
when nothing is loading, no error is set and a recipe is selected. -/
def detailsViewShown (s : AppState) : Bool :=
  !s.loading &&
  (match s.error with
   | some message => message = ""
   | none => true) &&
  s.selectedRecipe.isSome

/-! ## The search effect and its timer

The effect of lines 54-67 has the dependencies `[searchTerm, fetchRecipes]`.
`fetchRecipes` is the same function at every render (`useCallback` with no
dependencies), so after the first render the effect runs again exactly when
`searchTerm` holds a new value; the cleanup returned by the last run is called
first. -/

/-- A timer armed by `setTimeout` (line 61) that has neither run nor been
cleared: the instant, in milliseconds, at which its callback is due, and the
`searchTerm` its callback passes to `fetchRecipes`. -/
structure Timer where
  id : Nat
  due : Nat
  query : String
deriving DecidableEq

/-- The component together with what surrounds its state: the clock, the armed
timers in the order they were armed, the timer that the cleanup of the last
run of the effect clears (`none` when that run returned no cleanup), the id
of the next timer, and the queries for which `fetchRecipes` has been called
and a request sent, oldest first. -/
structure Controller where
  app : AppState
  now : Nat
  timers : List Timer
  cleanup : Option Nat
  nextTimerId : Nat
  requests : List String
deriving DecidableEq

/-- A call `fetchRecipes(query)` up to its `await fetch`: lines 13-14 run and
the request for `searchUrl query` is sent. -/
def Controller.callFetchRecipes (query : String) (c : Controller) : Controller :=
  { c with app := fetchRecipesStart c.app, requests := c.requests ++ [query] }

/-- Lines 58-66: the body of the effect. -/
def Controller.runEffect (c : Controller) : Controller :=
  if c.app.searchTerm = "" then
    { c.callFetchRecipes "chicken" with cleanup := none }
  else
    { c with
      timers := c.timers ++ [⟨c.nextTimerId, c.now + 500, c.app.searchTerm⟩]
      cleanup := some c.nextTimerId
      nextTimerId := c.nextTimerId + 1 }

/-- Line 65: the cleanup of the last run of the effect, `clearTimeout` of the
timer that run armed. -/
def Controller.runCleanup (c : Controller) : Controller :=
  match c.cleanup with
  | some id => { c with timers := c.timers.filter fun t => t.id ≠ id, cleanup := none }
  | none => c

/-- The component after its first render: the effect has run once. -/
def Controller.mounted : Controller :=
  Controller.runEffect
    { app := initialState, now := 0, timers := [], cleanup := none, nextTimerId := 0,
      requests := [] }

/-- The input fires `onChange` with `text`: `handleSearchChange` sets
`searchTerm`. When `text` is a new value the component renders again and the
cleanup and the effect run; when it is the value already held, no dependency
of the effect has changed and nothing runs. -/
def Controller.typed (text : String) (c : Controller) : Controller :=
  if text = c.app.searchTerm then c
  else Controller.runEffect (Controller.runCleanup { c with app := handleSearchChange text c.app })

/-- The clock advances by `ms` milliseconds: the timers that are due by then
run their callback `fetchRecipes(searchTerm)`, in the order they were armed. -/
def Controller.waited (ms : Nat) (c : Controller) : Controller :=
  (c.timers.filter fun t => t.due ≤ c.now + ms).foldl
    (fun acc t => acc.callFetchRecipes t.query)
    { c with timers := c.timers.filter fun t => ¬ t.due ≤ c.now + ms, now := c.now + ms }

/-- What happens to the search field: an edit, or time passing. -/
inductive Action where
  | typed (text : String)
  | waited (ms : Nat)
deriving DecidableEq

/-- The controller after one action. -/
def Controller.act (c : Controller) : Action → Controller
  | .typed text => c.typed text
  | .waited ms => c.waited ms

/-- The controller after a sequence of actions, oldest first. -/
def Controller.run (c : Controller) (actions : List Action) : Controller :=
  actions.foldl Controller.act c

/-- Every armed timer is the one that the registered cleanup clears. This
holds after the first render and after every action. -/
def Controller.wellFormed (c : Controller) : Bool :=
  c.timers.all fun t => c.cleanup == some t.id

/-- No request has been sent for the empty string and no armed timer will
send one. -/
def Controller.noEmptyQuery (c : Controller) : Prop :=
  (∀ q ∈ c.requests, q ≠ "") ∧ ∀ t ∈ c.timers, t.query ≠ ""

/-- Edits that follow a first one: each comes `gap` milliseconds after the one
before it, with `gap < 500`, and sets a text that is not empty and differs
from the text before it. -/
def quickEdits (previous : String) : List (Nat × String) → Bool
  | [] => true
  | (gap, text) :: rest =>
    decide (gap < 500) && decide (text ≠ "") && decide (text ≠ previous) && quickEdits text rest

/-- The text of the last of a run of edits. -/
def lastText (previous : String) : List (Nat × String) → String
  | [] => previous
  | (_, text) :: rest => lastText text rest

/-- The actions of a run of edits: wait for the gap, then type. -/
def editActions : List (Nat × String) → List Action
  | [] => []
  | (gap, text) :: rest => .waited gap :: .typed text :: editActions rest

/-- The state right after an edit to the non-empty text `text`: one timer is
armed, for `text`, due in 500 milliseconds, and it is the one the cleanup
clears. -/
def Controller.armedFor (c : Controller) (text : String) : Prop :=
  ∃ id, c.timers = [⟨id, c.now + 500, text⟩] ∧ c.cleanup = some id ∧ c.app.searchTerm = text

/-! ## The normalizer as the specification words it -/

/-- A field after trimming, or `none` when it is absent: missing, empty after
trimming, or equal to `"null"` after trimming. -/
def specField (raw : Option String) : Option String :=
  match raw with
  | none => none
  | some text =>
    if jsTrim text = "" ∨ jsTrim text = "null" then none else some (jsTrim text)

/-- What index `i` (counted from 1) contributes to the ingredient list. -/
def specEmit (meal : RawMeal) (i : Nat) : List String :=
  match specField (meal.get ("strIngredient" ++ toString i)) with
  | none => []
  | some ingredient =>
    match specField (meal.get ("strMeasure" ++ toString i)) with
    | some measure => [measure ++ " " ++ ingredient]
    | none => [ingredient]

/-- The contributions of the indices `first, first + 1, ..` (`count` of them),
in increasing order. -/
def specIngredientsFrom (meal : RawMeal) (first count : Nat) : List String :=
  ((List.range' first count).map (specEmit meal)).flatten

/-- The ingredient list of the specification: indices 1 to 20. -/
def specIngredients (meal : RawMeal) : List String :=
  specIngredientsFrom meal 1 20

/-- The instruction sequence of the specification: split on newline, trim
each segment, drop the empty ones. -/
def specInstructions (text : String) : List String :=
  ((splitNewline text).map jsTrim).filter fun segment => segment ≠ ""

/-- A record in the shape of the API's: index 2 has an empty ingredient,
index 3 the ingredient `"2 cups"` and a `null` measure, index 4 the placeholder
`"null"` as ingredient, index 5 the placeholder as measure. -/
def sampleMeal : RawMeal :=
  ⟨[("idMeal", some "52772"), ("strMeal", some "Teriyaki Chicken Casserole"),
    ("strInstructions", some "Step one.\n\nStep two.\n"),
    ("strIngredient1", some "soy sauce"), ("strMeasure1", some "3/4 cup"),
    ("strIngredient2", some ""), ("strMeasure2", some "1 tbsp"),
    ("strIngredient3", some "2 cups"), ("strMeasure3", none),
    ("strIngredient4", some " null "), ("strMeasure4", some "x"),
    ("strIngredient5", some " chicken breasts\t"), ("strMeasure5", some " null"),
    ("strIngredient6", none), ("strMeasure6", none)]⟩

/-- A second record, with another id and name. -/
def otherMeal : RawMeal :=
  ⟨[("idMeal", some "52940"), ("strMeal", some "Brown Stew Chicken"),
    ("strIngredient1", some "Chicken"), ("strMeasure1", some "1 whole")]⟩

/-- A record whose `idMeal` is the empty string. -/
def blankIdMeal : RawMeal :=
  ⟨[("idMeal", some ""), ("strMeal", some "Soup"), ("strIngredient1", some "Water")]⟩

/-! ## Lemmas on strings and lists -/

theorem jsTrim_empty : jsTrim "" = "" := rfl

theorem append_ne_empty_of_right (a b : String) (h : b ≠ "") : a ++ b ≠ "" := by
  intro hab
  apply h
  have hd := congrArg String.data hab
  rw [String.data_append] at hd
  have hb : b.data = [] := (List.append_eq_nil.mp hd).2
  exact String.ext hb

theorem spaced_ne_null (a b : String) : a ++ " " ++ b ≠ "null" := by
  intro hab
  have hd := congrArg String.data hab
  rw [String.data_append, String.data_append] at hd
  have hmem : ' ' ∈ a.data ++ " ".data ++ b.data := by
    simp
  rw [hd] at hmem
  revert hmem
  decide

/-- What one index contributes, on the values of its two fields: the callback
of `Array.from` followed by the test of `.filter(Boolean)`. -/
theorem entry_toList (ingredient measure : Option String) :
    (match (match ingredient with
            | none => none
            | some ingredient =>
              if ingredient ≠ "" ∧ jsTrim ingredient ≠ "" ∧ jsTrim ingredient ≠ "null" then
                some ((match measure with
                       | none => ""
                       | some measure =>
                         if measure ≠ "" ∧ jsTrim measure ≠ "" ∧ jsTrim measure ≠ "null"
                         then jsTrim measure ++ " " else "") ++ jsTrim ingredient)
              else none : Option String) with
      | some s => if s = "" then none else some s
      | none => none).toList =
    (match specField ingredient with
      | none => []
      | some ingredient =>
        match specField measure with
        | some measure => [measure ++ " " ++ ingredient]
        | none => [ingredient]) := by
  cases ingredient with
  | none => simp [specField]
  | some ing =>
    by_cases h0 : ing = ""
    · subst h0
      simp [specField, jsTrim_empty]
    by_cases h1 : jsTrim ing = ""
    · simp [specField, h1]
    by_cases h2 : jsTrim ing = "null"
    · simp [specField, h2]
    have hne : ∀ a : String, a ++ jsTrim ing ≠ "" := fun a =>
      append_ne_empty_of_right a _ h1
    cases measure with
    | none => simp [specField, h0, h1, h2]
    | some m =>
      by_cases m0 : m = ""
      · subst m0
        simp [specField, h0, h1, h2, jsTrim_empty]
      by_cases m1 : jsTrim m = ""
      · simp [specField, h0, h1, h2, m1]
      by_cases m2 : jsTrim m = "null"
      · simp [specField, h0, h1, h2, m2]
      simp [specField, h0, h1, h2, m0, m1, m2, hne]

theorem flatten_map_eq_filterMap {α β : Type} (f : α → List β) (g : α → Option β)
    (h : ∀ x, (g x).toList = f x) (l : List α) :
    (l.map f).flatten = l.filterMap g := by
  induction l with
  | nil => rfl
  | cons x xs ih =>
    rw [List.map_cons, List.flatten_cons, ih, ← h x]
    cases hg : g x <;> simp [List.filterMap_cons, hg]

theorem formattedIngredients_eq_spec (meal : RawMeal) :
    formattedIngredients meal = specIngredients meal := by
  unfold formattedIngredients specIngredients specIngredientsFrom filterBoolean
  rw [List.filterMap_map, List.range'_eq_map_range, List.map_map]
  symm
  apply flatten_map_eq_filterMap
  intro i
  simp only [Function.comp_apply, specEmit, Nat.add_comm 1 i]
  exact entry_toList _ _

theorem detailedIngredients_eq_spec (meal : RawMeal) :
    detailedIngredients meal = specIngredients meal := by
  unfold detailedIngredients specIngredients specIngredientsFrom filterBoolean
  rw [List.filterMap_map, List.range'_eq_map_range, List.map_map]
  symm
  apply flatten_map_eq_filterMap
  intro i
  simp only [Function.comp_apply, specEmit, Nat.add_comm 1 i]
  exact entry_toList _ _

theorem specIngredientsFrom_append (meal : RawMeal) (first m n : Nat) :
    specIngredientsFrom meal first (m + n) =
      specIngredientsFrom meal first m ++ specIngredientsFrom meal (first + m) n := by
  unfold specIngredientsFrom
  rw [← List.flatten_append, ← List.map_append, List.range'_append_1, Nat.add_comm n m]

theorem specIngredientsFrom_one (meal : RawMeal) (i : Nat) :
    specIngredientsFrom meal i 1 = specEmit meal i := by
  simp [specIngredientsFrom]

theorem specIngredients_split (meal : RawMeal) (i : Nat) (h1 : 1 ≤ i) (h20 : i ≤ 20) :
    specIngredients meal =
      specIngredientsFrom meal 1 (i - 1) ++ specEmit meal i ++
        specIngredientsFrom meal (i + 1) (20 - i) := by
  have e : (20 : Nat) = (i - 1) + (1 + (20 - i)) := by omega
  have e1 : 1 + (i - 1) = i := by omega
  unfold specIngredients
  conv_lhs => rw [e]
  rw [specIngredientsFrom_append, specIngredientsFrom_append, e1, specIngredientsFrom_one,
    List.append_assoc]

theorem specField_ne (raw : Option String) (text : String) (h : specField raw = some text) :
    text ≠ "" ∧ text ≠ "null" := by
  cases raw with
  | none => simp [specField] at h
  | some t =>
    by_cases hn : jsTrim t = "" ∨ jsTrim t = "null"
    · simp [specField, hn] at h
    · have ht : jsTrim t = text := by simpa [specField, hn] using h
      rw [← ht]
      exact ⟨fun e => hn (Or.inl e), fun e => hn (Or.inr e)⟩

theorem specEmit_mem (meal : RawMeal) (i : Nat) (x : String) (h : x ∈ specEmit meal i) :
    x ≠ "" ∧ x ≠ "null" := by
  unfold specEmit at h
  split at h
  · simp at h
  · rename_i ingredient hi
    have hing := specField_ne _ _ hi
    split at h
    · rename_i measure hm
      have hx : x = measure ++ " " ++ ingredient := by simpa using h
      subst hx
      exact ⟨append_ne_empty_of_right _ _ hing.1, spaced_ne_null _ _⟩
    · have hx : x = ingredient := by simpa using h
      subst hx
      exact hing

theorem specIngredients_mem (meal : RawMeal) (x : String) (h : x ∈ specIngredients meal) :
    x ≠ "" ∧ x ≠ "null" := by
  unfold specIngredients specIngredientsFrom at h
  rw [List.mem_flatten] at h
  obtain ⟨l, hl, hx⟩ := h
  rw [List.mem_map] at hl
  obtain ⟨i, _, rfl⟩ := hl
  exact specEmit_mem meal i x hx

theorem filterBoolean_length_le (xs : List (Option String)) :
    (filterBoolean xs).length ≤ xs.length :=
  List.length_filterMap_le _ _

theorem instructionLines_eq_spec (text : String) :
    instructionLines text = specInstructions text := by
  unfold instructionLines specInstructions
  rw [List.filter_map]
  congr 1

/-! ## The claims -/

/-- C1: for every raw meal record, the ingredient list built by either mapping
is the list obtained by walking the indices 1 to 20 in increasing order, a
field being absent when it is missing, empty after trimming or `"null"` after
trimming: an absent ingredient contributes nothing, a present ingredient with
a present measure contributes `"<measure> <ingredient>"`, and a present
ingredient with an absent measure contributes the trimmed ingredient alone,
which then stands after the entries of the lower indices and before those of
the higher ones. -/
theorem ingredients_follow_index_walk (meal : RawMeal) :
    (formattedRecipe meal).ingredients = specIngredients meal ∧
    (detailedRecipe meal).ingredients = specIngredients meal ∧
    ∀ (i : Nat) (text : String), 1 ≤ i → i ≤ 20 →
      specField (meal.get ("strIngredient" ++ toString i)) = some text →
      specField (meal.get ("strMeasure" ++ toString i)) = none →
      (formattedRecipe meal).ingredients =
          specIngredientsFrom meal 1 (i - 1) ++ [text] ++
            specIngredientsFrom meal (i + 1) (20 - i) ∧
      (detailedRecipe meal).ingredients =
          specIngredientsFrom meal 1 (i - 1) ++ [text] ++
            specIngredientsFrom meal (i + 1) (20 - i) := by
  refine ⟨formattedIngredients_eq_spec meal, detailedIngredients_eq_spec meal, ?_⟩
  intro i text h1 h20 hi hm
  have hemit : specEmit meal i = [text] := by
    simp only [specEmit, hi, hm]
  have hsplit := specIngredients_split meal i h1 h20
  rw [hemit] at hsplit
  exact ⟨(formattedIngredients_eq_spec meal).trans hsplit,
    (detailedIngredients_eq_spec meal).trans hsplit⟩

/-- The statement of C1 at `sampleMeal`, whose index 3 holds the ingredient
`"2 cups"` and no measure: the entry `"2 cups"` stands between the entry of
index 1 and that of index 5. -/
theorem ingredients_follow_index_walk_witness :
    specField (sampleMeal.get ("strIngredient" ++ toString 3)) = some "2 cups" ∧
    specField (sampleMeal.get ("strMeasure" ++ toString 3)) = none ∧
    (formattedRecipe sampleMeal).ingredients =
      ["3/4 cup soy sauce"] ++ ["2 cups"] ++ ["chicken breasts"] ∧
    (detailedRecipe sampleMeal).ingredients =
      ["3/4 cup soy sauce"] ++ ["2 cups"] ++ ["chicken breasts"] := by
  have h := (ingredients_follow_index_walk sampleMeal).2.2 3 "2 cups"
    (by decide) (by decide) (by decide) (by decide)
  have below : specIngredientsFrom sampleMeal 1 (3 - 1) = ["3/4 cup soy sauce"] := by decide
  have above : specIngredientsFrom sampleMeal (3 + 1) (20 - 3) = ["chicken breasts"] := by
    decide
  rw [below, above] at h
  exact ⟨by decide, by decide, h.1, h.2⟩

/-- C2: for every raw record, the ingredient list of the normalized recipe
contains no empty string and no entry `"null"`, and has at most 20 entries;
this holds for the list-search mapping and for the detail-lookup mapping. -/
theorem ingredients_well_formed (meal : RawMeal) :
    ("" ∉ (formattedRecipe meal).ingredients ∧
      "null" ∉ (formattedRecipe meal).ingredients ∧
      (formattedRecipe meal).ingredients.length ≤ 20) ∧
    ("" ∉ (detailedRecipe meal).ingredients ∧
      "null" ∉ (detailedRecipe meal).ingredients ∧
      (detailedRecipe meal).ingredients.length ≤ 20) := by
  have hf : (formattedRecipe meal).ingredients = specIngredients meal :=
    formattedIngredients_eq_spec meal
  have hd : (detailedRecipe meal).ingredients = specIngredients meal :=
    detailedIngredients_eq_spec meal
  have hlen : (formattedRecipe meal).ingredients.length ≤ 20 := by
    show (formattedIngredients meal).length ≤ 20
    unfold formattedIngredients
    exact (filterBoolean_length_le _).trans (by simp)
  have hlen2 : (detailedRecipe meal).ingredients.length ≤ 20 := by
    show (detailedIngredients meal).length ≤ 20
    unfold detailedIngredients
    exact (filterBoolean_length_le _).trans (by simp)
  refine ⟨⟨?_, ?_, hlen⟩, ⟨?_, ?_, hlen2⟩⟩
  · rw [hf]; exact fun h => (specIngredients_mem meal _ h).1 rfl
  · rw [hf]; exact fun h => (specIngredients_mem meal _ h).2 rfl
  · rw [hd]; exact fun h => (specIngredients_mem meal _ h).1 rfl
  · rw [hd]; exact fun h => (specIngredients_mem meal _ h).2 rfl

/-- C3: for every raw instructions string, the instruction lines of the
normalized recipe (which keeps the raw text; the lines are computed where the
recipe is displayed) are the sequence obtained by splitting the text on
newline, trimming each segment and dropping the segments that are empty after
trimming, in the original order; they are the items displayed whenever there
is at least one; and `"Step one.\n\nStep two.\n"` gives
`["Step one.", "Step two."]`. -/
theorem instructions_split_trim_drop (meal : RawMeal) (text : String)
    (h : meal.get "strInstructions" = some text) :
    (formattedRecipe meal).instructions.map instructionLines = some (specInstructions text) ∧
    (detailedRecipe meal).instructions.map instructionLines = some (specInstructions text) ∧
    (specInstructions text ≠ [] →
      instructionItems (detailedRecipe meal).instructions = specInstructions text) ∧
    instructionLines "Step one.\n\nStep two.\n" = ["Step one.", "Step two."] := by
  have hf : (formattedRecipe meal).instructions = some text := h
  have hd : (detailedRecipe meal).instructions = some text := h
  rw [hf, hd]
  refine ⟨by simp [instructionLines_eq_spec], by simp [instructionLines_eq_spec], ?_, by decide⟩
  intro hne
  have hlen : (instructionLines text).length > 0 := by
    rw [instructionLines_eq_spec]
    exact List.length_pos.mpr hne
  have htext : text ≠ "" := by
    intro e
    subst e
    exact hne (by decide)
  simp only [instructionItems]
  rw [if_pos ⟨htext, hlen⟩, instructionLines_eq_spec]

/-- The statement of C3 at `sampleMeal`, whose instructions are
`"Step one.\n\nStep two.\n"`. -/
theorem instructions_split_trim_drop_witness :
    sampleMeal.get "strInstructions" = some "Step one.\n\nStep two.\n" ∧
    (detailedRecipe sampleMeal).instructions.map instructionLines =
      some (specInstructions "Step one.\n\nStep two.\n") ∧
    specInstructions "Step one.\n\nStep two.\n" = ["Step one.", "Step two."] :=
  ⟨by decide,
   (instructions_split_trim_drop sampleMeal "Step one.\n\nStep two.\n" (by decide)).2.1,
   by decide⟩

/-- C4, as stated, fails: from the first render, a search for `"a"` and then a
search for `"ab"` are issued, the later one settles with `otherMeal`, and then
the earlier one settles with `sampleMeal`; the late response of the earlier
request replaces the results. -/
theorem superseded_search_response_changes_results :
    (run initialState
        [.searchIssued "a", .searchIssued "ab",
         .searchSettled (.json (some [otherMeal])),
         .searchSettled (.json (some [sampleMeal]))]).filteredRecipes ≠
      (run initialState
        [.searchIssued "a", .searchIssued "ab",
         .searchSettled (.json (some [otherMeal]))]).filteredRecipes := by
  decide

/-- C4, amended: a response is applied whenever it arrives, superseded or
not. After any sequence of turns, a settling search request sets the results
to the normalized records of its response (to the empty list on failure) and
`loading` to false, and leaves the selection untouched; so when two searches
are issued and the earlier one settles after the later one, the results shown
at the end are those of the earlier one. -/
theorem search_response_always_applied (s : AppState) (events : List Event)
    (q1 q2 : String) (r1 r2 : Response) :
    ((run s (events ++ [.searchSettled r1])).filteredRecipes =
        (match r1 with
         | .json meals => (meals.getD []).map formattedRecipe
         | _ => []) ∧
      (run s (events ++ [.searchSettled r1])).loading = false ∧
      (run s (events ++ [.searchSettled r1])).selectedRecipe =
        (run s events).selectedRecipe) ∧
    ((run s [.searchIssued q1, .searchIssued q2, .searchSettled r2,
          .searchSettled r1]).filteredRecipes =
        (match r1 with
         | .json meals => (meals.getD []).map formattedRecipe
         | _ => []) ∧
      (run s [.searchIssued q1, .searchIssued q2, .searchSettled r2,
          .searchSettled r1]).selectedRecipe = s.selectedRecipe) := by
  refine ⟨?_, ?_⟩
  · simp only [run, List.foldl_append, List.foldl_cons, List.foldl_nil, step]
    cases r1 <;> simp [fetchRecipesResolve]
  · simp only [run, List.foldl_cons, List.foldl_nil, step]
    cases r1 <;> cases r2 <;> simp [fetchRecipesResolve, fetchRecipesStart]

/-- C5, as stated, fails: `fetchRecipeDetails("52772")` is started, the details
are closed, and then the response arrives with a record; the selection is set
by the late response. The same happens along a sequence in which the close
button is on display when it is clicked: a card is clicked while the typed
search is still waiting, the search runs and settles, a second card is
clicked, the first lookup settles and shows its recipe, the details are
closed, and the second lookup settles. -/
theorem late_details_response_sets_selected :
    (run initialState
        [.detailsIssued "52772", .detailsClosed,
         .detailsSettled (.json (some [sampleMeal]))]).selectedRecipe =
      some (detailedRecipe sampleMeal) ∧
    detailsViewShown (run initialState
        [.searchChanged "ch", .detailsIssued "52940", .searchIssued "ch",
         .searchSettled (.json (some [otherMeal, sampleMeal])),
         .detailsIssued "52772", .detailsSettled (.json (some [otherMeal]))]) = true ∧
    (run initialState
        [.searchChanged "ch", .detailsIssued "52940", .searchIssued "ch",
         .searchSettled (.json (some [otherMeal, sampleMeal])),
         .detailsIssued "52772", .detailsSettled (.json (some [otherMeal])),
         .detailsClosed]).selectedRecipe = none ∧
    (run initialState
        [.searchChanged "ch", .detailsIssued "52940", .searchIssued "ch",
         .searchSettled (.json (some [otherMeal, sampleMeal])),
         .detailsIssued "52772", .detailsSettled (.json (some [otherMeal])),
         .detailsClosed,
         .detailsSettled (.json (some [sampleMeal]))]).selectedRecipe =
      some (detailedRecipe sampleMeal) := by
  decide

/-- C5, amended: when the details are closed while a lookup is in flight, the
late response is applied all the same. If it carries a record, the selection
becomes the normalized record; if it carries none, or the request failed, the
selection is empty afterwards. -/
theorem late_details_response_applied (s : AppState) (id : String) (r : Response) :
    (run s [.detailsIssued id, .detailsClosed, .detailsSettled r]).selectedRecipe =
      (match r with
       | .json (some (meal :: _)) => some (detailedRecipe meal)
       | _ => none) := by
  simp only [run, List.foldl_cons, List.foldl_nil, step]
  cases r with
  | json meals =>
    cases meals with
    | none => simp [fetchRecipeDetailsResolve]
    | some l => cases l <;> simp [fetchRecipeDetailsResolve]
  | _ => simp [fetchRecipeDetailsResolve]

/-- C6, as stated, fails: once `sampleMeal` has been selected from the first
render, starting a search leaves it selected. -/
theorem search_start_keeps_selected :
    (run initialState
        [.detailsIssued "52772", .detailsSettled (.json (some [sampleMeal])),
         .searchIssued "pasta"]).selectedRecipe ≠ none := by
  decide

/-- C6, amended: for every state and every term, starting a search sets
`loading` and clears the error, so that the status is `Loading` before the
request is sent; the selection is left as it was, at the start and through to
the end of the call. -/
theorem search_start_sets_loading (s : AppState) (term : String) (r : Response) :
    status (step s (.searchIssued term)) = .Loading ∧
    (step s (.searchIssued term)).loading = true ∧
    (step s (.searchIssued term)).error = none ∧
    (step s (.searchIssued term)).selectedRecipe = s.selectedRecipe ∧
    (fetchRecipes term r s).selectedRecipe = s.selectedRecipe := by
  refine ⟨by simp [status, step, fetchRecipesStart], rfl, rfl, rfl, ?_⟩
  cases r <;> simp [fetchRecipes, fetchRecipesResolve, fetchRecipesStart]

/-- C7, as stated, fails: the search of the first render is in flight, `"a"`
is typed and its search is sent, the first search ends in HTTP status 500,
and then the search for `"a"` succeeds. Its records become the results, but
the error set by the other search stays: the status is `Error`, not `Idle`. -/
theorem search_success_keeps_error_of_other_request :
    (run initialState
        [.searchIssued "chicken", .searchChanged "a", .searchIssued "a",
         .searchSettled (.httpError 500),
         .searchSettled (.json (some [sampleMeal]))]).filteredRecipes =
      [formattedRecipe sampleMeal] ∧
    status (run initialState
        [.searchIssued "chicken", .searchChanged "a", .searchIssued "a",
         .searchSettled (.httpError 500),
         .searchSettled (.json (some [sampleMeal]))]) =
      .Error "Failed to load recipes. Please try again later." ∧
    status (run initialState
        [.searchIssued "chicken", .searchChanged "a", .searchIssued "a",
         .searchSettled (.httpError 500),
         .searchSettled (.json (some [sampleMeal]))]) ≠ .Idle := by
  decide

/-- C7, amended: for every search whose request succeeds, in whatever state and
after whatever turns the response arrives, the results become the normalized
records in the order of the response, `loading` becomes false and the error is
left as it is at that moment. The status is therefore `Idle` when no error
has been set since the search was started, as when the call runs from its
start to its end with nothing in between, and it is the `Error` of another
request otherwise. When the source has no records (`meals` is `null` or the
empty array) the results are empty, and this is no error of the search. -/
theorem search_success_outcome (s : AppState) (query : String)
    (meals : Option (List RawMeal)) (events : List Event) :
    ((fetchRecipes query (.json meals) s).filteredRecipes =
        (meals.getD []).map formattedRecipe ∧
      status (fetchRecipes query (.json meals) s) = .Idle ∧
      (fetchRecipes query (.json meals) s).loading = false ∧
      (fetchRecipes query (.json meals) s).error = none) ∧
    ((fetchRecipes query (.json none) s).filteredRecipes = [] ∧
      status (fetchRecipes query (.json none) s) = .Idle) ∧
    ((fetchRecipes query (.json (some [])) s).filteredRecipes = [] ∧
      status (fetchRecipes query (.json (some [])) s) = .Idle) ∧
    ((fetchRecipesResolve (.json meals) s).filteredRecipes =
        (meals.getD []).map formattedRecipe ∧
      (fetchRecipesResolve (.json meals) s).loading = false ∧
      (fetchRecipesResolve (.json meals) s).error = s.error ∧
      status (fetchRecipesResolve (.json meals) s) =
        (match s.error with
         | some message => if message = "" then .Idle else .Error message
         | none => .Idle)) ∧
    ((run s (events ++ [.searchSettled (.json meals)])).filteredRecipes =
        (meals.getD []).map formattedRecipe ∧
      (run s (events ++ [.searchSettled (.json meals)])).loading = false ∧
      (run s (events ++ [.searchSettled (.json meals)])).error = (run s events).error ∧
      status (run s (events ++ [.searchSettled (.json meals)])) =
        (match (run s events).error with
         | some message => if message = "" then .Idle else .Error message
         | none => .Idle)) := by
  refine ⟨?_, ?_, ?_, ?_, ?_⟩
  · simp [fetchRecipes, fetchRecipesResolve, fetchRecipesStart, status]
  · simp [fetchRecipes, fetchRecipesResolve, fetchRecipesStart, status]
  · simp [fetchRecipes, fetchRecipesResolve, fetchRecipesStart, status]
  · simp [fetchRecipesResolve, status]
  · simp only [run, List.foldl_append, List.foldl_cons, List.foldl_nil, step]
    simp [fetchRecipesResolve, status]

/-- C8: for every search whose request fails (the transport fails, the HTTP
status is not a success, or the body cannot be read), the final state has the
error `"Failed to load recipes. Please try again later."`, no results,
whatever they were before, and `loading` false; this is so in whatever state
the failure arrives. -/
theorem search_failure_outcome (s : AppState) (query : String) (r : Response)
    (h : ∀ meals, r ≠ .json meals) :
    (status (fetchRecipes query r s) =
        .Error "Failed to load recipes. Please try again later." ∧
      (fetchRecipes query r s).filteredRecipes = [] ∧
      (fetchRecipes query r s).loading = false) ∧
    (status (fetchRecipesResolve r s) =
        .Error "Failed to load recipes. Please try again later." ∧
      (fetchRecipesResolve r s).filteredRecipes = [] ∧
      (fetchRecipesResolve r s).loading = false) := by
  cases r with
  | json meals => exact absurd rfl (h meals)
  | _ => simp [fetchRecipes, fetchRecipesResolve, fetchRecipesStart, status]

/-- The statement of C8 for a search that ends in HTTP status 500 while
`sampleMeal` is listed. -/
theorem search_failure_outcome_witness :
    status (fetchRecipes "chicken" (.httpError 500)
        { initialState with filteredRecipes := [formattedRecipe sampleMeal] }) =
      .Error "Failed to load recipes. Please try again later." ∧
    (fetchRecipes "chicken" (.httpError 500)
        { initialState with filteredRecipes := [formattedRecipe sampleMeal] }).filteredRecipes
      = [] :=
  have h := (search_failure_outcome
    { initialState with filteredRecipes := [formattedRecipe sampleMeal] } "chicken"
    (.httpError 500) (fun _ e => Response.noConfusion e)).1
  ⟨h.1, h.2.1⟩

/-- C9, as stated, fails: the recipes of the first render are listed, `"x"` is
typed, a card is clicked before the quiet period is over, the search for `"x"`
is sent and fails, and then the lookup succeeds with a record. The record is
selected, but the error of the search stays: the status is `Error`, not
`Idle`, and the details are not on display. -/
theorem details_success_keeps_error_of_other_request :
    (run initialState
        [.searchIssued "chicken", .searchSettled (.json (some [sampleMeal, otherMeal])),
         .searchChanged "x", .detailsIssued "52772", .searchIssued "x",
         .searchSettled (.httpError 500),
         .detailsSettled (.json (some [sampleMeal]))]).selectedRecipe =
      some (detailedRecipe sampleMeal) ∧
    status (run initialState
        [.searchIssued "chicken", .searchSettled (.json (some [sampleMeal, otherMeal])),
         .searchChanged "x", .detailsIssued "52772", .searchIssued "x",
         .searchSettled (.httpError 500),
         .detailsSettled (.json (some [sampleMeal]))]) =
      .Error "Failed to load recipes. Please try again later." ∧
    detailsViewShown (run initialState
        [.searchIssued "chicken", .searchSettled (.json (some [sampleMeal, otherMeal])),
         .searchChanged "x", .detailsIssued "52772", .searchIssued "x",
         .searchSettled (.httpError 500),
         .detailsSettled (.json (some [sampleMeal]))]) = false := by
  decide

/-- C9, amended: for every id, a call of `fetchRecipeDetails` has one of three
outcomes, in whatever state its response arrives. A response with a record:
the selection is the normalized record, `loading` is false and the error is
left as it is at that moment, so that the status is `Idle` when no error has
been set since the call began, as when the call runs to its end with nothing
in between. A response without a record (`meals` is `null` or empty): the
status is the error `"Recipe details not found."` and nothing is selected. A
failed request: the status is the error
`"Failed to load recipe details. Please try again later."` and nothing is
selected. -/
theorem details_outcomes (s : AppState) (id : String) :
    (∀ (meal : RawMeal) (others : List RawMeal),
      (fetchRecipeDetails id (.json (some (meal :: others))) s).selectedRecipe =
          some (detailedRecipe meal) ∧
        status (fetchRecipeDetails id (.json (some (meal :: others))) s) = .Idle) ∧
    (status (fetchRecipeDetails id (.json none) s) = .Error "Recipe details not found." ∧
      (fetchRecipeDetails id (.json none) s).selectedRecipe = none ∧
      status (fetchRecipeDetails id (.json (some [])) s) =
        .Error "Recipe details not found." ∧
      (fetchRecipeDetails id (.json (some [])) s).selectedRecipe = none) ∧
    (status (fetchRecipeDetails id .networkError s) =
        .Error "Failed to load recipe details. Please try again later." ∧
      (∀ code : Nat, status (fetchRecipeDetails id (.httpError code) s) =
        .Error "Failed to load recipe details. Please try again later.") ∧
      status (fetchRecipeDetails id .invalidBody s) =
        .Error "Failed to load recipe details. Please try again later." ∧
      (fetchRecipeDetails id .networkError s).selectedRecipe = none ∧
      (∀ code : Nat, (fetchRecipeDetails id (.httpError code) s).selectedRecipe = none) ∧
      (fetchRecipeDetails id .invalidBody s).selectedRecipe = none) ∧
    (∀ (meal : RawMeal) (others : List RawMeal),
      (fetchRecipeDetailsResolve (.json (some (meal :: others))) s).selectedRecipe =
          some (detailedRecipe meal) ∧
        (fetchRecipeDetailsResolve (.json (some (meal :: others))) s).loading = false ∧
        (fetchRecipeDetailsResolve (.json (some (meal :: others))) s).error = s.error ∧
        status (fetchRecipeDetailsResolve (.json (some (meal :: others))) s) =
          (match s.error with
           | some message => if message = "" then .Idle else .Error message
           | none => .Idle)) ∧
    (status (fetchRecipeDetailsResolve (.json none) s) =
        .Error "Recipe details not found." ∧
      (fetchRecipeDetailsResolve (.json none) s).selectedRecipe = none ∧
      status (fetchRecipeDetailsResolve (.json (some [])) s) =
        .Error "Recipe details not found." ∧
      (fetchRecipeDetailsResolve (.json (some [])) s).selectedRecipe = none) ∧
    (status (fetchRecipeDetailsResolve .networkError s) =
        .Error "Failed to load recipe details. Please try again later." ∧
      (∀ code : Nat, status (fetchRecipeDetailsResolve (.httpError code) s) =
        .Error "Failed to load recipe details. Please try again later.") ∧
      status (fetchRecipeDetailsResolve .invalidBody s) =
        .Error "Failed to load recipe details. Please try again later." ∧
      (fetchRecipeDetailsResolve .networkError s).selectedRecipe = none ∧
      (∀ code : Nat, (fetchRecipeDetailsResolve (.httpError code) s).selectedRecipe = none) ∧
      (fetchRecipeDetailsResolve .invalidBody s).selectedRecipe = none) := by
  refine ⟨?_, ?_, ?_, ?_, ?_, ?_⟩
  · simp [fetchRecipeDetails, fetchRecipeDetailsResolve, fetchRecipeDetailsStart, status]
  · simp [fetchRecipeDetails, fetchRecipeDetailsResolve, fetchRecipeDetailsStart, status]
  · simp [fetchRecipeDetails, fetchRecipeDetailsResolve, fetchRecipeDetailsStart, status]
  · simp [fetchRecipeDetailsResolve, status]
  · simp [fetchRecipeDetailsResolve, status]
  · simp [fetchRecipeDetailsResolve, status]

/-- C10: for every state, closing the details clears the selection and the
error unconditionally, and leaves `loading` and the results as they are. The
handler is wired to the close button alone (line 169), which is on display
when nothing is loading, no error is set and a recipe is selected; called
from there, it leaves the status `Idle`. -/
theorem close_clears_selected_and_error (s : AppState) :
    (handleCloseDetails s).selectedRecipe = none ∧
    (handleCloseDetails s).error = none ∧
    (handleCloseDetails s).loading = s.loading ∧
    (handleCloseDetails s).filteredRecipes = s.filteredRecipes ∧
    status (handleCloseDetails s) = (if s.loading then .Loading else .Idle) ∧
    (detailsViewShown s = true → status (handleCloseDetails s) = .Idle) := by
  refine ⟨rfl, rfl, rfl, rfl, ?_, ?_⟩
  · cases hl : s.loading <;> simp [status, handleCloseDetails, hl]
  · intro hshown
    have hl : s.loading = false := by
      cases hl : s.loading
      · rfl
      · simp [detailsViewShown, hl] at hshown
    simp [status, handleCloseDetails, hl]

/-- The statement of C10 in the state where `sampleMeal` has been looked up
and is on display. -/
theorem close_clears_selected_and_error_witness :
    detailsViewShown (fetchRecipeDetails "52772" (.json (some [sampleMeal])) initialState)
      = true ∧
    status (handleCloseDetails
      (fetchRecipeDetails "52772" (.json (some [sampleMeal])) initialState)) = .Idle :=
  ⟨by decide,
   (close_clears_selected_and_error
      (fetchRecipeDetails "52772" (.json (some [sampleMeal])) initialState)).2.2.2.2.2
      (by decide)⟩

/-! ## Lemmas on the search effect -/

theorem runCleanup_timers (c : Controller) (h : c.wellFormed = true) :
    c.runCleanup.timers = [] := by
  unfold Controller.wellFormed at h
  rw [List.all_eq_true] at h
  unfold Controller.runCleanup
  cases hc : c.cleanup with
  | none =>
    simp only
    cases ht : c.timers with
    | nil => rfl
    | cons t ts =>
      have := h t (by rw [ht]; exact List.mem_cons_self _ _)
      rw [hc] at this
      simp at this
  | some id =>
    simp only
    rw [List.filter_eq_nil_iff]
    intro t ht
    have := h t ht
    rw [hc] at this
    simp at this
    simp [this]

theorem runCleanup_rest (c : Controller) :
    c.runCleanup.app = c.app ∧ c.runCleanup.now = c.now ∧
      c.runCleanup.requests = c.requests ∧ c.runCleanup.nextTimerId = c.nextTimerId := by
  unfold Controller.runCleanup
  cases c.cleanup <;> simp

theorem typed_armed (c : Controller) (text : String) (hw : c.wellFormed = true)
    (hne : text ≠ "") (hnew : text ≠ c.app.searchTerm) :
    (c.typed text).armedFor text ∧ (c.typed text).requests = c.requests ∧
      (c.typed text).now = c.now := by
  have hw2 : (Controller.wellFormed { c with app := handleSearchChange text c.app }) = true := hw
  have ht := runCleanup_timers _ hw2
  have hr := runCleanup_rest { c with app := handleSearchChange text c.app }
  obtain ⟨happ, hnow, hreq, _⟩ := hr
  have hterm : (Controller.runCleanup
      { c with app := handleSearchChange text c.app }).app.searchTerm = text := by
    rw [happ]; rfl
  unfold Controller.typed
  rw [if_neg hnew]
  unfold Controller.runEffect
  rw [hterm, if_neg hne]
  refine ⟨⟨_, ?_, rfl, hterm⟩, hreq, hnow⟩
  simp [ht]

theorem waited_before_due (c : Controller) (id due : Nat) (text : String) (ms : Nat)
    (ht : c.timers = [⟨id, due, text⟩]) (hlt : c.now + ms < due) :
    c.waited ms = { c with now := c.now + ms } := by
  unfold Controller.waited
  have h1 : ¬ due ≤ c.now + ms := by omega
  simp [ht, h1, hlt]

theorem waited_due (c : Controller) (id due : Nat) (text : String) (ms : Nat)
    (ht : c.timers = [⟨id, due, text⟩]) (hle : due ≤ c.now + ms) :
    (c.waited ms).requests = c.requests ++ [text] ∧ (c.waited ms).timers = [] := by
  unfold Controller.waited
  simp [ht, hle, Controller.callFetchRecipes]

theorem run_edits_requests (rest : List (Nat × String)) (ms : Nat) (hms : 500 ≤ ms) :
    ∀ (c : Controller) (text : String), c.armedFor text → quickEdits text rest = true →
      (c.run (editActions rest ++ [.waited ms])).requests =
        c.requests ++ [lastText text rest] := by
  induction rest with
  | nil =>
    intro c text ⟨id, ht, _, _⟩ _
    have := (waited_due c id _ text ms ht (by omega)).1
    simpa [editActions, Controller.run, Controller.act, lastText] using this
  | cons e rest ih =>
    intro c text ⟨id, ht, hcl, hterm⟩ hq
    obtain ⟨gap, next⟩ := e
    simp only [quickEdits, Bool.and_eq_true, decide_eq_true_eq] at hq
    obtain ⟨⟨⟨hgap, hne⟩, hnew⟩, hrest⟩ := hq
    have hwait := waited_before_due c id _ text gap ht (by omega)
    have hw : (Controller.wellFormed { c with now := c.now + gap }) = true := by
      simp [Controller.wellFormed, ht, hcl]
    have htyped := typed_armed { c with now := c.now + gap } next hw hne
      (by show next ≠ c.app.searchTerm; rw [hterm]; exact hnew)
    have hrun : c.run (editActions ((gap, next) :: rest) ++ [.waited ms]) =
        (Controller.typed next { c with now := c.now + gap }).run
          (editActions rest ++ [.waited ms]) := by
      simp [editActions, Controller.run, Controller.act, hwait]
    rw [hrun, ih _ next htyped.1 hrest, htyped.2.1]
    rfl

theorem run_edits_armed (rest : List (Nat × String)) :
    ∀ (c : Controller) (text : String), c.armedFor text → quickEdits text rest = true →
      (c.run (editActions rest)).armedFor (lastText text rest) ∧
        (c.run (editActions rest)).requests = c.requests := by
  induction rest with
  | nil =>
    intro c text h _
    exact ⟨h, rfl⟩
  | cons e rest ih =>
    intro c text ⟨id, ht, hcl, hterm⟩ hq
    obtain ⟨gap, next⟩ := e
    simp only [quickEdits, Bool.and_eq_true, decide_eq_true_eq] at hq
    obtain ⟨⟨⟨hgap, hne⟩, hnew⟩, hrest⟩ := hq
    have hwait := waited_before_due c id _ text gap ht (by omega)
    have hw : (Controller.wellFormed { c with now := c.now + gap }) = true := by
      simp [Controller.wellFormed, ht, hcl]
    have htyped := typed_armed { c with now := c.now + gap } next hw hne
      (by show next ≠ c.app.searchTerm; rw [hterm]; exact hnew)
    have hrun : c.run (editActions ((gap, next) :: rest)) =
        (Controller.typed next { c with now := c.now + gap }).run (editActions rest) := by
      simp [editActions, Controller.run, Controller.act, hwait]
    rw [hrun]
    have := ih _ next htyped.1 hrest
    exact ⟨this.1, this.2.trans htyped.2.1⟩

theorem fold_calls (l : List Timer) :
    ∀ c : Controller,
      (l.foldl (fun acc t => acc.callFetchRecipes t.query) c).requests =
          c.requests ++ l.map (fun t => t.query) ∧
        (l.foldl (fun acc t => acc.callFetchRecipes t.query) c).timers = c.timers ∧
        (l.foldl (fun acc t => acc.callFetchRecipes t.query) c).cleanup = c.cleanup := by
  induction l with
  | nil => intro c; simp
  | cons t ts ih =>
    intro c
    have := ih (c.callFetchRecipes t.query)
    simp only [List.foldl_cons, List.map_cons]
    refine ⟨?_, this.2.1, this.2.2⟩
    rw [this.1]
    simp [Controller.callFetchRecipes]

theorem wellFormed_act (c : Controller) (a : Action) (h : c.wellFormed = true) :
    (c.act a).wellFormed = true := by
  cases a with
  | typed text =>
    simp only [Controller.act, Controller.typed]
    split
    · exact h
    · have hw2 : (Controller.wellFormed { c with app := handleSearchChange text c.app })
          = true := h
      have ht := runCleanup_timers _ hw2
      unfold Controller.runEffect
      split <;> simp [Controller.wellFormed, Controller.callFetchRecipes, ht]
  | waited ms =>
    simp only [Controller.act, Controller.waited]
    have hf := fold_calls (c.timers.filter fun t => t.due ≤ c.now + ms)
      { c with timers := c.timers.filter fun t => ¬ t.due ≤ c.now + ms, now := c.now + ms }
    unfold Controller.wellFormed at h ⊢
    rw [List.all_eq_true] at h ⊢
    intro t ht
    rw [hf.2.1] at ht
    rw [hf.2.2]
    exact h t (List.mem_of_mem_filter ht)

theorem wellFormed_run (actions : List Action) :
    ∀ c : Controller, c.wellFormed = true → (c.run actions).wellFormed = true := by
  induction actions with
  | nil => intro c h; exact h
  | cons a rest ih =>
    intro c h
    exact ih (c.act a) (wellFormed_act c a h)

theorem noEmptyQuery_act (c : Controller) (a : Action) (h : c.noEmptyQuery) :
    (c.act a).noEmptyQuery := by
  obtain ⟨hreq, htim⟩ := h
  cases a with
  | typed text =>
    simp only [Controller.act, Controller.typed]
    split
    · exact ⟨hreq, htim⟩
    · have hr := runCleanup_rest { c with app := handleSearchChange text c.app }
      have hsub : ∀ t ∈ (Controller.runCleanup
          { c with app := handleSearchChange text c.app }).timers, t.query ≠ "" := by
        intro t ht
        apply htim t
        unfold Controller.runCleanup at ht
        split at ht
        · exact List.mem_of_mem_filter ht
        · exact ht
      unfold Controller.runEffect
      split
      · refine ⟨?_, hsub⟩
        intro q hq
        simp only [Controller.callFetchRecipes, List.mem_append, List.mem_singleton] at hq
        rcases hq with hq | hq
        · rw [hr.2.2.1] at hq
          exact hreq q hq
        · rw [hq]; decide
      · rename_i hterm
        refine ⟨by intro q hq; rw [hr.2.2.1] at hq; exact hreq q hq, ?_⟩
        intro t ht
        simp only [List.mem_append, List.mem_singleton] at ht
        rcases ht with ht | ht
        · exact hsub t ht
        · rw [ht]; exact hterm
  | waited ms =>
    simp only [Controller.act, Controller.waited]
    have hf := fold_calls (c.timers.filter fun t => t.due ≤ c.now + ms)
      { c with timers := c.timers.filter fun t => ¬ t.due ≤ c.now + ms, now := c.now + ms }
    refine ⟨?_, ?_⟩
    · intro q hq
      rw [hf.1] at hq
      simp only [List.mem_append, List.mem_map] at hq
      rcases hq with hq | ⟨t, ht, rfl⟩
      · exact hreq q hq
      · exact htim t (List.mem_of_mem_filter ht)
    · intro t ht
      rw [hf.2.1] at ht
      exact htim t (List.mem_of_mem_filter ht)

theorem noEmptyQuery_run (actions : List Action) :
    ∀ c : Controller, c.noEmptyQuery → (c.run actions).noEmptyQuery := by
  induction actions with
  | nil => intro c h; exact h
  | cons a rest ih =>
    intro c h
    exact ih (c.act a) (noEmptyQuery_act c a h)

theorem mounted_noEmptyQuery : Controller.mounted.noEmptyQuery := by
  refine ⟨?_, ?_⟩
  · intro q hq
    have : q = "chicken" := by simpa [Controller.mounted, Controller.runEffect,
      Controller.callFetchRecipes, initialState] using hq
    rw [this]; decide
  · intro t ht
    simp [Controller.mounted, Controller.runEffect, Controller.callFetchRecipes,
      initialState] at ht

/-! ## The claims on the search effect and on the two mappings -/

theorem typed_same_text (c : Controller) : c.typed c.app.searchTerm = c := by
  simp [Controller.typed]

/-- C11: an edit is what the input reports through `onChange`, a text other
than the one it holds. When a non-empty text is typed and is followed by
edits each less than 500 ms after the one before, each to a non-empty text,
then no request is sent while the edits go on, every timer armed by an
earlier edit has been cleared before it fired, the only one left being that
of the last text, and once 500 ms have passed exactly one request has been
sent, for the last text. So `"a"` and then `"ab"` less than 500 ms later,
typed after the first render, give exactly one request, for `"ab"`. The
premise on the state holds after the first render and after every action. -/
theorem debounce_last_edit_only (c : Controller) (first : String)
    (rest : List (Nat × String)) (ms : Nat) (actions : List Action)
    (hw : c.wellFormed = true) (hne : first ≠ "") (hnew : first ≠ c.app.searchTerm)
    (hrest : quickEdits first rest = true) (hms : 500 ≤ ms) :
    (c.run (.typed first :: editActions rest ++ [.waited ms])).requests =
        c.requests ++ [lastText first rest] ∧
    (c.run (.typed first :: editActions rest)).requests = c.requests ∧
    (∀ t ∈ (c.run (.typed first :: editActions rest)).timers,
        t.query = lastText first rest) ∧
    (∀ gap, gap < 500 →
      (Controller.mounted.run
          [.typed "a", .waited gap, .typed "ab", .waited ms]).requests =
        Controller.mounted.requests ++ ["ab"]) ∧
    (Controller.mounted.run actions).wellFormed = true := by
  have htyped := typed_armed c first hw hne hnew
  have hcons : ∀ l, c.run (.typed first :: l) = (c.typed first).run l := fun _ => rfl
  refine ⟨?_, ?_, ?_, ?_, ?_⟩
  · rw [List.cons_append, hcons, run_edits_requests rest ms hms _ first htyped.1 hrest,
      htyped.2.1]
  · rw [hcons, (run_edits_armed rest _ first htyped.1 hrest).2, htyped.2.1]
  · rw [hcons]
    obtain ⟨id, ht, _, _⟩ := (run_edits_armed rest _ first htyped.1 hrest).1
    intro t hmem
    rw [ht] at hmem
    rw [List.mem_singleton.mp hmem]
  · intro gap hgap
    have hm := typed_armed Controller.mounted "a" (by decide) (by decide) (by decide)
    have hq : quickEdits "a" [(gap, "ab")] = true := by
      simp [quickEdits, hgap]
    have := run_edits_requests [(gap, "ab")] ms hms _ "a" hm.1 hq
    rw [hm.2.1] at this
    exact this
  · exact wellFormed_run actions _ (by decide)

/-- The statement of C11 for `"a"` and then `"ab"` 499 ms later, typed after
the first render: one request more, for `"ab"`. -/
theorem debounce_last_edit_only_witness :
    (Controller.mounted.run
        [.typed "a", .waited 499, .typed "ab", .waited 500]).requests =
      Controller.mounted.requests ++ ["ab"] :=
  (debounce_last_edit_only Controller.mounted "a" [(499, "ab")] 500 []
    (by decide) (by decide) (by decide) (by decide) (by decide)).1

/-- C12: an empty query text triggers the search for `"chicken"` at once. At
the first render, where the text is empty, and whenever the field is
cleared, the request for `"chicken"` is sent in the same turn, no time
passing; the timer armed before is cleared and none is armed. Whatever is
typed and however long is waited after the first render, no request is ever
sent for the empty string. The premise on the state holds after the first
render and after every action. -/
theorem empty_text_searches_default (c : Controller) (actions : List Action) :
    (Controller.mounted.requests = ["chicken"] ∧ Controller.mounted.timers = [] ∧
      Controller.mounted.now = 0) ∧
    (c.wellFormed = true → c.app.searchTerm ≠ "" →
      (c.typed "").requests = c.requests ++ ["chicken"] ∧ (c.typed "").timers = [] ∧
        (c.typed "").now = c.now) ∧
    "" ∉ (Controller.mounted.run actions).requests ∧
    (Controller.mounted.run actions).wellFormed = true := by
  refine ⟨by decide, ?_, ?_, wellFormed_run actions _ (by decide)⟩
  · intro hw hterm
    have hw2 : (Controller.wellFormed { c with app := handleSearchChange "" c.app })
        = true := hw
    have ht := runCleanup_timers _ hw2
    obtain ⟨happ, hnow, hreq, _⟩ :=
      runCleanup_rest { c with app := handleSearchChange "" c.app }
    have hempty : (Controller.runCleanup
        { c with app := handleSearchChange "" c.app }).app.searchTerm = "" := by
      rw [happ]; rfl
    unfold Controller.typed
    rw [if_neg (fun e => hterm e.symm)]
    unfold Controller.runEffect
    rw [if_pos hempty]
    simp [Controller.callFetchRecipes, ht, hnow, hreq]
  · intro hmem
    exact (noEmptyQuery_run actions _ mounted_noEmptyQuery).1 "" hmem rfl

/-- The statement of C12 when the field is cleared 100 ms after `"a"` was
typed: the request for `"chicken"` is sent at once and no timer is left. -/
theorem empty_text_searches_default_witness :
    ((Controller.mounted.run [.typed "a", .waited 100]).typed "").requests =
      ["chicken", "chicken"] ∧
    ((Controller.mounted.run [.typed "a", .waited 100]).typed "").timers = [] :=
  have h := (empty_text_searches_default
    (Controller.mounted.run [.typed "a", .waited 100]) []).2.1 (by decide) (by decide)
  ⟨h.1, h.2.1⟩

/-- C13, as stated, fails: a response whose record has the empty string as
`idMeal` puts a recipe with the empty id in the results, and in the selection
when it is the response of a lookup. -/
theorem recipe_id_can_be_empty :
    (fetchRecipes "soup" (.json (some [blankIdMeal])) initialState).filteredRecipes.map
        (fun r => r.id) = [some ""] ∧
    (fetchRecipeDetails "" (.json (some [blankIdMeal])) initialState).selectedRecipe.map
        (fun r => r.id) = some (some "") := by
  decide

/-- C13, amended: the id of a recipe is the `idMeal` of its source record,
copied without a check. For every response, the ids of the recipes placed in
the results are the `idMeal` fields of the records, in order, and the id of
the recipe placed in the selection is the `idMeal` of the first record; so the
ids are non-empty strings whenever those of the source are. -/
theorem recipe_id_is_idMeal (s : AppState) (query id : String) (meals : List RawMeal)
    (meal : RawMeal) (others : List RawMeal) :
    (fetchRecipes query (.json (some meals)) s).filteredRecipes.map (fun r => r.id) =
        meals.map (fun m => m.get "idMeal") ∧
    (fetchRecipeDetails id (.json (some (meal :: others))) s).selectedRecipe.map
        (fun r => r.id) = some (meal.get "idMeal") ∧
    ((∀ m ∈ meals, ∃ t, m.get "idMeal" = some t ∧ t ≠ "") →
      ∀ r ∈ (fetchRecipes query (.json (some meals)) s).filteredRecipes,
        ∃ t, r.id = some t ∧ t ≠ "") := by
  have hres : (fetchRecipes query (.json (some meals)) s).filteredRecipes =
      meals.map formattedRecipe := by
    simp [fetchRecipes, fetchRecipesResolve]
  refine ⟨?_, ?_, ?_⟩
  · rw [hres, List.map_map]
    rfl
  · simp [fetchRecipeDetails, fetchRecipeDetailsResolve, detailedRecipe]
  · intro hall r hr
    rw [hres, List.mem_map] at hr
    obtain ⟨m, hm, rfl⟩ := hr
    exact hall m hm

/-- The statement of C13, amended, for a response with `sampleMeal` and
`otherMeal`, whose ids are not empty. -/
theorem recipe_id_is_idMeal_witness :
    ∀ r ∈ (fetchRecipes "chicken" (.json (some [sampleMeal, otherMeal]))
        initialState).filteredRecipes, ∃ t, r.id = some t ∧ t ≠ "" :=
  (recipe_id_is_idMeal initialState "chicken" "52772" [sampleMeal, otherMeal]
    sampleMeal []).2.2 (by decide)

/-- C14: the two inline copies of the record mapping agree. For every raw
record, the recipe built for the list (`fetchRecipes`) and the recipe built
for the details (`fetchRecipeDetails`) are equal, field for field. -/
theorem mappings_agree (meal : RawMeal) :
    formattedRecipe meal = detailedRecipe meal ∧
    (formattedRecipe meal).id = (detailedRecipe meal).id ∧
    (formattedRecipe meal).name = (detailedRecipe meal).name ∧
    (formattedRecipe meal).image = (detailedRecipe meal).image ∧
    (formattedRecipe meal).ingredients = (detailedRecipe meal).ingredients ∧
    (formattedRecipe meal).instructions = (detailedRecipe meal).instructions ∧
    (formattedRecipe meal).prepTime = (detailedRecipe meal).prepTime ∧
    (formattedRecipe meal).cookTime = (detailedRecipe meal).cookTime ∧
    (formattedRecipe meal).servings = (detailedRecipe meal).servings := by
  have hing : formattedIngredients meal = detailedIngredients meal :=
    (formattedIngredients_eq_spec meal).trans (detailedIngredients_eq_spec meal).symm
  have h : formattedRecipe meal = detailedRecipe meal := by
    simp [formattedRecipe, detailedRecipe, hing]
  exact ⟨h, by rw [h], by rw [h], by rw [h], by rw [h], by rw [h], by rw [h], by rw [h],
    by rw [h]⟩

end RecipeFinder
